import Mathlib

/-!
Verification development for the tiled repository excerpt:
the file-sequence array adapter (`tiled/adapters/sequence.py`),
the dataframe client partition reads (`tiled/client/dataframe.py`),
and the server settings singleton (`tiled/server/settings.py`).

NumPy N-dimensional arrays are embedded as regular nested tensors;
Python slices are embedded with full (step-1) Python clamping semantics
over `Int` bounds.
-/

namespace Tiled

/-- Model of a NumPy N-dimensional array: a scalar, or a list of
subarrays along the leading dimension. -/
inductive Tensor (α : Type) where
  | scalar : α → Tensor α
  | dim : List (Tensor α) → Tensor α

mutual

/-- Decidable equality for tensors, by mutual recursion with the
element-list version. -/
def Tensor.decEq {α : Type} [DecidableEq α] : (s t : Tensor α) → Decidable (s = t)
  | .scalar a, .scalar b =>
    if h : a = b then .isTrue (by rw [h]) else
      .isFalse (by intro hh; injection hh; contradiction)
  | .scalar _, .dim _ => .isFalse (fun h => Tensor.noConfusion h)
  | .dim _, .scalar _ => .isFalse (fun h => Tensor.noConfusion h)
  | .dim ts, .dim us =>
    match Tensor.decEqList ts us with
    | .isTrue h => .isTrue (by rw [h])
    | .isFalse h => .isFalse (by intro hh; injection hh; contradiction)

/-- Decidable equality for lists of tensors. -/
def Tensor.decEqList {α : Type} [DecidableEq α] :
    (ss ts : List (Tensor α)) → Decidable (ss = ts)
  | [], [] => .isTrue rfl
  | [], _ :: _ => .isFalse (by simp)
  | _ :: _, [] => .isFalse (by simp)
  | s :: ss, t :: ts =>
    match Tensor.decEq s t, Tensor.decEqList ss ts with
    | .isTrue h1, .isTrue h2 => .isTrue (by rw [h1, h2])
    | .isFalse h1, _ => .isFalse (by simp [h1])
    | _, .isFalse h2 => .isFalse (by simp [h2])

end

instance {α : Type} [DecidableEq α] : DecidableEq (Tensor α) := Tensor.decEq

instance {ε α : Type} [DecidableEq ε] [DecidableEq α] : DecidableEq (Except ε α)
  | .ok a, .ok b =>
    if h : a = b then .isTrue (by rw [h]) else
      .isFalse (by intro hh; injection hh; contradiction)
  | .ok _, .error _ => .isFalse (fun h => Except.noConfusion h)
  | .error _, .ok _ => .isFalse (fun h => Except.noConfusion h)
  | .error a, .error b =>
    if h : a = b then .isTrue (by rw [h]) else
      .isFalse (by intro hh; injection hh; contradiction)

/-- Shape read off the leftmost spine, matching `ndarray.shape` for
regular (rectangular) tensors. An empty dimension hides deeper extents,
as this model does not carry the dtype-level shape of empty arrays. -/
def Tensor.shape {α : Type} : Tensor α → List Nat
  | .scalar _ => []
  | .dim [] => [0]
  | .dim (t :: ts) => (ts.length + 1) :: t.shape

/-- Decidable regularity predicate: `t.hasShape s` holds when `t` is a
rectangular tensor of shape `s`. -/
def Tensor.hasShape {α : Type} : List Nat → Tensor α → Bool
  | [], .scalar _ => true
  | n :: s, .dim ts => ts.length == n && ts.all (fun t => Tensor.hasShape s t)
  | _, _ => false

/-- Python exception kinds raised by the modelled code paths. -/
inductive PyErr where
  | indexError
  | valueError
  | runtimeError
  | unboundLocalError
  | keyError
  deriving DecidableEq

/-- Python `slice(start, stop)` with step 1 (`slice(None)` is both fields
`none`), as used by `FileSequenceAdapter`. -/
structure PySlice where
  start : Option Int
  stop : Option Int
  deriving DecidableEq

/-- Python clamping of one slice bound against a dimension of size `n`:
negative values count from the end, and the result is clamped to `[0, n]`. -/
def pyResolve (n : Nat) (v : Int) : Nat :=
  if v < 0 then (v + n).toNat else min v.toNat n

/-- Indices selected by a Python step-1 slice from a dimension of size `n`. -/
def PySlice.indices (s : PySlice) (n : Nat) : List Nat :=
  let a := (s.start.map (pyResolve n)).getD 0
  let b := (s.stop.map (pyResolve n)).getD n
  List.range' a (b - a)

/-- One element of a NumPy indexing tuple, covering the index values
NumPy accepts — an integer, a slice, `Ellipsis`, Python `None`
(`np.newaxis`), or a 1-d integer list (advanced "fancy" indexing) — plus
`other`, a Python value NumPy indexing rejects with `IndexError` (a
string, a float, a nested tuple, …; the tag distinguishes such values).
Boolean masks are outside this embedding's value universe. -/
inductive BSel where
  | int (i : Int)
  | slice (s : PySlice)
  | ellipsis
  | pynone
  | fancy (ks : List Int)
  | other (tag : String)
  deriving DecidableEq

/-- True when the selector is `Ellipsis`. -/
def BSel.isEll : BSel → Bool
  | .ellipsis => true
  | _ => false

/-- True when the selector is a Python value NumPy indexing rejects. -/
def BSel.isOther : BSel → Bool
  | .other _ => true
  | _ => false

/-- True when the selector is an integer-list (advanced) index. -/
def BSel.isFancy : BSel → Bool
  | .fancy _ => true
  | _ => false

/-- True when the selector consumes one dimension of the array
(`np.newaxis` and `Ellipsis` consume none). -/
def BSel.isConsuming : BSel → Bool
  | .int _ => true
  | .slice _ => true
  | .fancy _ => true
  | _ => false

/-- A selector resolved against a concrete dimension size: a validated
in-bounds index, a clamped contiguous span, an inserted length-1 axis,
or a validated list of in-bounds indices. -/
inductive RSel where
  | rInt (k : Nat)
  | rSlice (start len : Nat)
  | rNewaxis
  | rFancy (ks : List Nat)
  deriving DecidableEq

/-- Replaces the first `Ellipsis` by `k` full slices (NumPy expansion). -/
def expandEll : List BSel → Nat → List BSel
  | [], _ => []
  | .ellipsis :: rest, k => List.replicate k (.slice ⟨none, none⟩) ++ rest
  | x :: rest, k => x :: expandEll rest k

/-- Resolves one dimension-consuming selector against a dimension of
size `n`. NumPy rejects an out-of-bounds integer index (after negative
wrapping), both standalone and inside an integer list; a slice is
clamped and never fails. (`pynone` is intercepted by `resolveAll` before
this is reached.) -/
def resolveOne (x : BSel) (n : Nat) : Option RSel :=
  match x with
  | .int i =>
    let i' := if i < 0 then i + n else i
    if 0 ≤ i' ∧ i' < n then some (.rInt i'.toNat) else none
  | .slice s =>
    let a := (s.start.map (pyResolve n)).getD 0
    let b := (s.stop.map (pyResolve n)).getD n
    some (.rSlice a (b - a))
  | .ellipsis => some (.rSlice 0 n)
  | .pynone => some .rNewaxis
  | .fancy ks =>
    (ks.mapM (fun k =>
      let k' : Int := if k < 0 then k + n else k
      if 0 ≤ k' ∧ k' < n then some k'.toNat else none)).map RSel.rFancy
  | .other _ => none

/-- Resolves an ellipsis-free selector list against a shape. A
`np.newaxis` consumes no shape entry; every other selector is resolved
against the next dimension; missing trailing selectors mean the
dimension is untouched. -/
def resolveAll : List BSel → List Nat → Option (List RSel)
  | [], _ => some []
  | .pynone :: xs, ns => (resolveAll xs ns).map (fun rs => .rNewaxis :: rs)
  | _ :: _, [] => none
  | x :: xs, n :: ns => do
    let r ← resolveOne x n
    let rs ← resolveAll xs ns
    some (r :: rs)

/-- Validation and resolution of a NumPy indexing tuple against a shape:
values NumPy rejects (`other`) fail, at most one `Ellipsis` is allowed,
the dimension-consuming selectors must not outnumber the dimensions, the
`Ellipsis` expands to full slices, and integer indices are bounds-checked
per dimension. `none` means NumPy raises `IndexError`. Advanced indexing is modelled
elementwise and in place, which matches NumPy for at most one
integer-list index not separated from any scalar-integer index by a
slice, `Ellipsis` or `np.newaxis`; the remaining advanced cases — two or
more integer lists (broadcast together by NumPy), or a list and a scalar
integer separated by a slice (NumPy moves the broadcast dimensions to
the front) — are beyond this embedding: multi-list tuples are rejected
here, separated-placement tuples keep the in-place order. No theorem
below quantifies over tuples containing an integer list; the one
concrete evaluation uses a lone single-list index, where the model
agrees with NumPy. -/
def ndResolve (sels : List BSel) (shape : List Nat) : Option (List RSel) :=
  if sels.any BSel.isOther then none
  else
    let ells := sels.countP (fun x => BSel.isEll x)
    if 2 ≤ ells then none
    else if 2 ≤ sels.countP (fun x => BSel.isFancy x) then none
    else
      let consumed := sels.countP (fun x => BSel.isConsuming x)
      if shape.length < consumed then none
      else resolveAll (expandEll sels (shape.length - consumed)) shape

/-- Applies a resolved selector list to a tensor. Validity against the
tensor's shape is assumed (established by `ndResolve`); the `getD`
defaults are unreachable on regular tensors. A `rNewaxis` wraps the rest
of the selection in a new length-1 axis; a `rFancy` replaces the axis by
the selected entries, in place. -/
def applyResolved {α : Type} : List RSel → Tensor α → Tensor α
  | [], t => t
  | .rInt k :: rest, .dim ts => applyResolved rest (ts.getD k (.dim []))
  | .rSlice a len :: rest, .dim ts =>
    .dim (((ts.drop a).take len).map (fun t => applyResolved rest t))
  | .rNewaxis :: rest, t => .dim [applyResolved rest t]
  | .rFancy ks :: rest, .dim ts =>
    .dim (ks.map (fun k => applyResolved rest (ts.getD k (.dim []))))
  | _ :: _, t => t

/-- NumPy basic indexing `t[tuple(sels)]`. -/
def npIndex {α : Type} (sels : List BSel) (t : Tensor α) : Except PyErr (Tensor α) :=
  match ndResolve sels t.shape with
  | none => .error .indexError
  | some rs => .ok (applyResolved rs t)

/-- NumPy `np.squeeze(t, 0)`: drops a leading dimension of length one;
any other input is a `ValueError` (or, for a 0-d input, an axis error). -/
def squeeze0 {α : Type} : Tensor α → Except PyErr (Tensor α)
  | .dim [t] => .ok t
  | _ => .error .valueError

/-- NumPy `np.atleast_1d`: wraps a 0-d result into a 1-element array and
leaves everything else unchanged. -/
def atleast1d {α : Type} : Tensor α → Tensor α
  | .scalar a => .dim [.scalar a]
  | t => t

/-- A Python value passed as the `slice` argument of
`FileSequenceAdapter.read` / `read_block` (`Optional[NDSlice]`): the
default `Ellipsis`, an `int`, a `slice`, a tuple of index elements
(which may include `None` and integer lists), Python `None`, a bare
integer list, or a value outside all of these. -/
inductive Req where
  | ellipsis
  | int (i : Int)
  | slice (s : PySlice)
  | tup (xs : List BSel)
  | pynone
  | pylist (ks : List Int)
  | other (tag : String)
  deriving DecidableEq

/-- The top-level request corresponding to a tuple element, as produced
by the `len(slice) == 1` branch `self.read(slice=slice[0])`. -/
def Req.ofBSel : BSel → Req
  | .int i => .int i
  | .slice s => .slice s
  | .ellipsis => .ellipsis
  | .pynone => .pynone
  | .fancy ks => .pylist ks
  | .other tag => .other tag

/-- The argument passed to `_load_from_files`: an `int` or a `slice`
(the no-argument call passes `slice(None)`). -/
inductive LoadSel where
  | int (i : Int)
  | slice (s : PySlice)

namespace FileSequenceAdapter

/-- Modelled from the spec: `_load_from_files` is abstract in the source
(its per-file-type subclasses are outside the excerpt). Its documented
contract: the `slice` argument ("an optional slice along the left-most
dimension") "effectively selects a subset of files to be loaded", and the
result is "a numpy ND array with data from each file stacked along an
addional (left-most) dimension". The adapter is modelled by the list of
per-file slabs; an integer selector uses Python sequence indexing
(negative wrap, `IndexError` out of range) and selects one file, a slice
selector clamps like a Python slice. The returned list of file indices
instruments which files were loaded. -/
def loadFromFiles {α : Type} (files : List (Tensor α)) :
    LoadSel → Except PyErr (Tensor α × List Nat)
  | .int i =>
    let n := files.length
    let i' := if i < 0 then i + n else i
    if h : 0 ≤ i' ∧ i'.toNat < n then
      .ok (.dim [files.get ⟨i'.toNat, h.2⟩], [i'.toNat])
    else .error .indexError
  | .slice s =>
    let ixs := s.indices files.length
    .ok (.dim (ixs.map (fun j => files.getD j (.dim []))), ixs)

/-- One non-tuple branch of `FileSequenceAdapter.read`: `Ellipsis` loads
everything; an `int` loads one file and squeezes the leading dimension;
a `slice` loads the selected files; any other value (`None`, a list, an
arbitrary object) falls to the else branch and raises `RuntimeError`
("Unsupported slice type"). -/
def readBasicTop {α : Type} (files : List (Tensor α)) :
    BSel → Except PyErr (Tensor α × List Nat)
  | .ellipsis => loadFromFiles files (.slice ⟨none, none⟩)
  | .int i => do
    let (a, ixs) ← loadFromFiles files (.int i)
    let a' ← squeeze0 a
    .ok (a', ixs)
  | .slice s => loadFromFiles files (.slice s)
  | _ => .error .runtimeError

/-- Embedding of `FileSequenceAdapter.read`. The `slice is Ellipsis`,
`int`, `slice` and non-tuple-else branches are as in `readBasicTop`;
a 0-tuple loads everything; a 1-tuple recurses on its element (the
recursion `self.read(slice=slice[0])` is inlined, its target being a
non-tuple request); a longer tuple dispatches on `left_axis`: an `int`
loads one file and squeezes, `Ellipsis` loads everything and prepends
`Ellipsis` to `the_rest`, a `slice` recurses (`self.read(slice=left_axis)`,
inlined as a slice load), and any other `left_axis` leaves `arr` unbound
so reading it raises `UnboundLocalError`; finally
`np.atleast_1d(arr[tuple(the_rest)])` is returned. The second component
accumulates the indices of the files loaded. -/
def read {α : Type} (files : List (Tensor α)) :
    Req → Except PyErr (Tensor α × List Nat)
  | .ellipsis => readBasicTop files .ellipsis
  | .int i => readBasicTop files (.int i)
  | .slice s => readBasicTop files (.slice s)
  | .pynone => .error .runtimeError
  | .pylist _ => .error .runtimeError
  | .other _ => .error .runtimeError
  | .tup [] => loadFromFiles files (.slice ⟨none, none⟩)
  | .tup [x] => readBasicTop files x
  | .tup (left :: rest) =>
    match left with
    | .int i => do
      let (a, ixs) ← readBasicTop files (.int i)
      let r ← npIndex rest a
      .ok (atleast1d r, ixs)
    | .ellipsis => do
      let (a, ixs) ← readBasicTop files .ellipsis
      let r ← npIndex (.ellipsis :: rest) a
      .ok (atleast1d r, ixs)
    | .slice s => do
      let (a, ixs) ← readBasicTop files (.slice s)
      let r ← npIndex rest a
      .ok (atleast1d r, ixs)
    | _ => .error .unboundLocalError

/-- NumPy `arr[slice]` for the `slice` argument of `read_block`:
`arr[...]` is (a view of) `arr` itself, `None` is `np.newaxis`, a list
is advanced indexing on axis 0, a tuple is NumPy tuple indexing, and a
value NumPy rejects raises `IndexError`. -/
def npGetItem {α : Type} (t : Tensor α) : Req → Except PyErr (Tensor α)
  | .ellipsis => .ok t
  | .int i => npIndex [.int i] t
  | .slice s => npIndex [.slice s] t
  | .tup xs => npIndex xs t
  | .pynone => .ok (.dim [t])
  | .pylist ks => npIndex [.fancy ks] t
  | .other _ => .error .indexError

/-- Embedding of `FileSequenceAdapter.read_block`: raise `IndexError` if
any trailing block entry is nonzero (an empty block tuple also raises
`IndexError`, at `block[0]`); otherwise
`self.read(builtins.slice(block[0], block[0] + 1))` and apply the
`slice` argument to the result. -/
def read_block {α : Type} (files : List (Tensor α)) (block : List Int)
    (sl : Req) : Except PyErr (Tensor α × List Nat) :=
  match block with
  | [] => .error .indexError
  | b0 :: trailing =>
    if trailing.any (fun b => b ≠ 0) then .error .indexError
    else do
      let (arr, ixs) ← read files (.slice ⟨some b0, some (b0 + 1)⟩)
      let r ← npGetItem arr sl
      .ok (r, ixs)

end FileSequenceAdapter

/-- Array structure descriptor: shape, per-dimension chunk-length tuples,
and a dtype tag (standing in for `BuiltinDtype`). -/
structure ArrayStructure where
  shape : List Nat
  chunks : List (List Nat)
  dataType : String
  deriving DecidableEq

/-- Chunk-coverage invariant of a valid `ArrayStructure`: one chunk-length
tuple per dimension and, for every dimension, the sum of that dimension's
chunk lengths equals that dimension's shape entry. -/
def ArrayStructure.chunksCover (st : ArrayStructure) : Bool :=
  st.chunks.length == st.shape.length &&
    (st.chunks.zip st.shape).all (fun p => p.1.sum == p.2)

namespace FileSequenceAdapter

/-- Embedding of the `structure is None` branch of
`FileSequenceAdapter.__init__`: `dat0 = self._load_from_files(0)`,
`shape = (len(self.filepaths), *dat0.shape[1:])`, one chunk per file
along the leading dimension (`(1,) * shape[0]`) and one full-width chunk
per trailing dimension (`[(i,) for i in shape[1:]]`); the dtype is taken
from `dat0` (here a tag parameter, since slabs are assumed homogeneous). -/
def inferStructure {α : Type} (files : List (Tensor α)) (dtype : String) :
    Except PyErr ArrayStructure := do
  let (dat0, _) ← loadFromFiles files (.int 0)
  let trailing := dat0.shape.tail
  .ok { shape := files.length :: trailing
      , chunks := List.replicate files.length 1 :: trailing.map (fun i => [i])
      , dataType := dtype }

end FileSequenceAdapter

/-- Table structure descriptor as used by `read_partition`: the declared
partition count and the column names of the empty `meta` frame. -/
structure TableStructure where
  npartitions : Nat
  columns : List String
  deriving DecidableEq

/-- A lazy one-partition dask dataframe as returned by
`_DaskDataFrameClient.read_partition`: a deferred task that will call
`_get_partition(partition, columns)` when computed — no data has been
fetched yet. -/
inductive DelayedFrame where
  | delayed (partition : Nat) (columns : Option (List String))
  deriving DecidableEq

namespace DataFrameClient

/-- Embedding of `_DaskDataFrameClient.read_partition`: bounds-check the
partition index against `structure.npartitions` (raising `IndexError`),
then select `meta[columns]` when columns are given (raising `KeyError`
on an unknown column; absent columns select nothing and never fail),
then wrap the deferred `_get_partition` call — fetching no data. -/
def read_partition (st : TableStructure) (partition : Int)
    (columns : Option (List String)) : Except PyErr DelayedFrame :=
  if ¬ (0 ≤ partition ∧ partition < st.npartitions) then .error .indexError
  else if (columns.getD []).all st.columns.contains then
    .ok (.delayed partition.toNat columns)
  else .error .keyError

end DataFrameClient

/-- Process environment for the server settings: `os.getenv` lookup. -/
def Env : Type := String → Option String

/-- Python `int(s)` on a well-formed integer environment value (a
malformed value would abort the Python import; well-formedness is
assumed here). -/
def pyInt (s : String) : Int := s.toInt?.getD 0

/-- Python `bool(int(s))`. -/
def pyBoolInt (s : String) : Bool := pyInt s ≠ 0

/-- Embedding of `tiled.server.settings.Settings` (pydantic
`BaseSettings`). Field defaults are computed from the environment at
class-definition time; `timedelta` fields are carried as whole seconds;
`tree` and `authenticator` (Python `None` defaults) are omitted as they
carry no environment-derived data. -/
structure Settings where
  allowAnonymousAccess : Bool
  allowOrigins : List String
  singleUserApiKey : String
  singleUserApiKeyGenerated : Bool
  secretKeys : List String
  accessTokenMaxAgeSeconds : Int
  refreshTokenMaxAgeSeconds : Int
  sessionMaxAgeSeconds : Option Int
  responseBytesizeLimit : Int
  rejectUndeclaredSpecs : Bool
  databaseUri : Option String
  databaseInitIfNotExists : Bool
  databasePoolSize : Option Int
  databasePoolPrePing : Option Bool
  databaseMaxOverflow : Option Int
  exposeRawAssets : Bool
  deriving DecidableEq

/-- Construction of `Settings()` from the environment. `token1` and
`token2` are the two `secrets.token_hex(32)` values drawn once at
module-load time (defaults for the single-user API key and secret keys). -/
def Settings.fromEnv (env : Env) (token1 token2 : String) : Settings :=
  { allowAnonymousAccess :=
      pyBoolInt ((env "TILED_ALLOW_ANONYMOUS_ACCESS").getD "0")
  , allowOrigins :=
      (((env "TILED_ALLOW_ORIGINS").getD "").split Char.isWhitespace).filter
        (fun item => item ≠ "")
  , singleUserApiKey := (env "TILED_SINGLE_USER_API_KEY").getD token1
  , singleUserApiKeyGenerated := ¬ (env "TILED_SINGLE_USER_API_KEY").isSome
  , secretKeys := ((env "TILED_SERVER_SECRET_KEYS").getD token2).splitOn ";"
  , accessTokenMaxAgeSeconds :=
      pyInt ((env "TILED_ACCESS_TOKEN_MAX_AGE").getD (toString (15 * 60)))
  , refreshTokenMaxAgeSeconds :=
      pyInt ((env "TILED_REFRESH_TOKEN_MAX_AGE").getD (toString (7 * 24 * 60 * 60)))
  , sessionMaxAgeSeconds :=
      some (pyInt ((env "TILED_SESSION_MAX_AGE").getD (toString (365 * 24 * 60 * 60))))
  , responseBytesizeLimit :=
      pyInt ((env "TILED_RESPONSE_BYTESIZE_LIMIT").getD "300000000")
  , rejectUndeclaredSpecs :=
      pyBoolInt ((env "TILED_REJECT_UNDECLARED_SPECS").getD "0")
  , databaseUri := env "TILED_DATABASE_URI"
  , databaseInitIfNotExists :=
      pyBoolInt ((env "TILED_DATABASE_INIT_IF_NOT_EXISTS").getD "0")
  , databasePoolSize := some (pyInt ((env "TILED_DATABASE_POOL_SIZE").getD "5"))
  , databasePoolPrePing :=
      some (pyBoolInt ((env "TILED_DATABASE_POOL_PRE_PING").getD "1"))
  , databaseMaxOverflow :=
      some (pyInt ((env "TILED_DATABASE_MAX_OVERFLOW").getD "5"))
  , exposeRawAssets := true }

/-- Process state for the settings module: the immutable environment and
the module-load-time tokens, the `functools.cache` cell of
`get_settings`, and a counter of how many times `Settings()` ran. -/
structure ServerProcess where
  env : Env
  token1 : String
  token2 : String
  cached : Option Settings
  loads : Nat

/-- Fresh process state: the cache is empty, nothing loaded yet. -/
def ServerProcess.init (env : Env) (token1 token2 : String) : ServerProcess :=
  ⟨env, token1, token2, none, 0⟩

/-- Embedding of `get_settings` (`@cache def get_settings(): return
Settings()`): on a cache hit return the cached value; on a miss construct
`Settings()` once, count the load, and cache the result. -/
def get_settings (p : ServerProcess) : Settings × ServerProcess :=
  match p.cached with
  | some s => (s, p)
  | none =>
    let s := Settings.fromEnv p.env p.token1 p.token2
    (s, { p with cached := some s, loads := p.loads + 1 })

/-- The stacked logical array the spec describes: "the logical array is
the slabs stacked along a new leading dimension". Used to compare what
`read` returns against applying a whole selection to this array. -/
def stackedLogicalArray {α : Type} (files : List (Tensor α)) : Tensor α :=
  .dim files

/-- Concrete adapter contents: one file holding a slab of shape `(1,)`. -/
def exFiles1 : List (Tensor Int) := [.dim [.scalar 7]]

/-- Concrete adapter contents: two files, each a slab of shape `(2,)`. -/
def exFiles2 : List (Tensor Int) :=
  [.dim [.scalar 10, .scalar 20], .dim [.scalar 30, .scalar 40]]

/-! Helper lemmas. -/

/-- On shapes with no zero-length dimension, a tensor of shape `S` reads
back `S` from its leftmost spine. -/
theorem shape_of_hasShape {α : Type} :
    ∀ (S : List Nat) (t : Tensor α), (∀ m ∈ S, 0 < m) →
      t.hasShape S = true → t.shape = S := by
  intro S
  induction S with
  | nil =>
    intro t _ h
    cases t with
    | scalar a => rfl
    | dim ts => simp [Tensor.hasShape] at h
  | cons n s ih =>
    intro t hpos h
    cases t with
    | scalar a => simp [Tensor.hasShape] at h
    | dim ts =>
      simp only [Tensor.hasShape, Bool.and_eq_true, beq_iff_eq, List.all_eq_true] at h
      obtain ⟨hlen, hall⟩ := h
      have hn : 0 < n := hpos n (by simp)
      cases ts with
      | nil => simp at hlen; omega
      | cons t0 ts' =>
        simp only [Tensor.shape]
        have h1 : ts'.length + 1 = n := by simpa using hlen
        rw [h1, ih t0 (fun m hm => hpos m (by simp [hm])) (hall t0 (by simp))]

/-- Reading indices `a, a+1, …, a+k-1` out of a list (with any default)
is the contiguous sublist `(drop a).take k`, when in range. -/
theorem map_getD_range' {α : Type} (files : List α) (d : α) :
    ∀ (k a : Nat), a + k ≤ files.length →
      (List.range' a k).map (fun j => files.getD j d) =
        (files.drop a).take k := by
  intro k
  induction k with
  | zero => intro a _; simp
  | succ k ih =>
    intro a h
    have ha : a < files.length := by omega
    rw [List.range'_succ, List.map_cons, ih (a + 1) (by omega),
      List.drop_eq_getElem_cons ha, List.take_succ_cons,
      List.getD_eq_getElem files d ha]

/-- Inferred chunking of the trailing dimensions covers them. -/
theorem trailing_chunks_cover :
    ∀ S : List Nat,
      ((S.map (fun i => [i])).zip S).all (fun p => p.1.sum == p.2) = true := by
  intro S
  induction S with
  | nil => rfl
  | cons n s ih => simpa using ih

/-- Bind of a successful `Except` computation. -/
theorem except_bind_ok {ε α β : Type} (a : α) (f : α → Except ε β) :
    (Except.ok a >>= f) = f a := rfl

/-- Evaluation of `read` on an in-range contiguous slice: the files
`a, …, b-1` are loaded and stacked. -/
theorem read_slice_eval {α : Type} (files : List (Tensor α)) (a b : Nat)
    (hab : a ≤ b) (hbn : b ≤ files.length) :
    FileSequenceAdapter.read files (.slice ⟨some (a : Int), some (b : Int)⟩) =
      .ok (.dim ((files.drop a).take (b - a)), List.range' a (b - a)) := by
  have hra : pyResolve files.length (a : Int) = a := by
    simp only [pyResolve]
    rw [if_neg (by simp)]
    simp only [Int.toNat_natCast]
    exact Nat.min_eq_left (hab.trans hbn)
  have hrb : pyResolve files.length (b : Int) = b := by
    simp only [pyResolve]
    rw [if_neg (by simp)]
    simp only [Int.toNat_natCast]
    exact Nat.min_eq_left hbn
  have hix : PySlice.indices ⟨some (a : Int), some (b : Int)⟩ files.length =
      List.range' a (b - a) := by
    simp [PySlice.indices, hra, hrb]
  show FileSequenceAdapter.loadFromFiles files
      (.slice ⟨some (a : Int), some (b : Int)⟩) = _
  simp only [FileSequenceAdapter.loadFromFiles, hix]
  rw [map_getD_range' files (.dim []) (b - a) a (by omega)]

/-! Claim theorems. -/

/-- C9: `get_settings` is a cached singleton — in a fresh process the
second call returns the same `Settings` value as the first, and the
configuration is loaded from the environment exactly once across both
calls. -/
theorem get_settings_cached_singleton (env : Env) (t1 t2 : String) :
    (get_settings (get_settings (ServerProcess.init env t1 t2)).2).1 =
      (get_settings (ServerProcess.init env t1 t2)).1 ∧
    (get_settings (ServerProcess.init env t1 t2)).2.loads = 1 ∧
    (get_settings (get_settings (ServerProcess.init env t1 t2)).2).2.loads = 1 :=
  ⟨rfl, rfl, rfl⟩

/-- C10: tuple selectors normalize by length — `read(())` returns the
same value as `read(...)` (slice absent), and `read((s,))` returns the
same value as `read(s)` for every single selector `s`. -/
theorem read_tuple_normalization {α : Type} (files : List (Tensor α)) :
    FileSequenceAdapter.read files (.tup []) =
      FileSequenceAdapter.read files .ellipsis ∧
    ∀ x : BSel, FileSequenceAdapter.read files (.tup [x]) =
      FileSequenceAdapter.read files (Req.ofBSel x) := by
  refine ⟨rfl, fun x => ?_⟩
  cases x <;> rfl

/-- C5: `read_block` with a nonzero entry in any trailing block position
raises `IndexError`, regardless of the leading index and of the slice
argument. -/
theorem read_block_nonzero_trailing_raises {α : Type} (files : List (Tensor α))
    (b0 : Int) (trailing : List Int) (sl : Req)
    (h : ∃ b ∈ trailing, b ≠ 0) :
    FileSequenceAdapter.read_block files (b0 :: trailing) sl =
      .error .indexError := by
  obtain ⟨b, hb, hbne⟩ := h
  have hany : trailing.any (fun b => b ≠ 0) = true :=
    List.any_of_mem hb (by simpa using hbne)
  simp only [FileSequenceAdapter.read_block]
  rw [if_pos hany]

/-- Witness for C5 at a concrete input: one file, block `(0, 1)`. -/
theorem read_block_nonzero_trailing_raises_witness :
    FileSequenceAdapter.read_block exFiles1 [0, 1] .ellipsis =
      .error .indexError :=
  read_block_nonzero_trailing_raises exFiles1 0 [1] .ellipsis
    ⟨1, by decide, by decide⟩

/-- C2 (divergence evaluated): for two files holding the slabs
`[10, 20]` and `[30, 40]`, the request `(slice(0, 2), 1)` makes `read`
return file 1's whole slab `[30, 40]` — the trailing selector lands on
axis 0 of the loaded stack — whereas applying the whole selection to the
stacked logical array selects column 1, `[20, 40]`. -/
theorem read_tuple_slice_leading_misaligned :
    FileSequenceAdapter.read exFiles2 (.tup [.slice ⟨some 0, some 2⟩, .int 1]) =
      .ok (.dim [.scalar 30, .scalar 40], [0, 1]) ∧
    npIndex [.slice ⟨some 0, some 2⟩, .int 1] (stackedLogicalArray exFiles2) =
      .ok (.dim [.scalar 20, .scalar 40]) ∧
    (Tensor.dim [Tensor.scalar 30, Tensor.scalar 40] : Tensor Int) ≠
      .dim [.scalar 20, .scalar 40] := by
  decide

/-- C3: for an integer `i` in range, `read(i)` loads exactly the one
file at position `i` (the instrumented load list is `[i]`) and returns
that file's slab with the degenerate leading dimension dropped — an
array of shape `S`. -/
theorem read_int_loads_one_file {α : Type} (files : List (Tensor α))
    (S : List Nat) (i : Nat)
    (hS : files.all (fun t => t.hasShape S) = true) (hi : i < files.length) :
    FileSequenceAdapter.read files (.int (i : Int)) =
      .ok (files.get ⟨i, hi⟩, [i]) ∧
    (files.get ⟨i, hi⟩).hasShape S = true := by
  have hneg : ¬ ((i : Int) < 0) := by simp
  have hcond : 0 ≤ (i : Int) ∧ ((i : Int)).toNat < files.length :=
    ⟨Int.natCast_nonneg i, by simpa using hi⟩
  have hload : FileSequenceAdapter.loadFromFiles files (.int (i : Int)) =
      .ok (.dim [files.get ⟨i, hi⟩], [i]) := by
    simp only [FileSequenceAdapter.loadFromFiles, if_neg hneg]
    rw [dif_pos hcond]
    rfl
  refine ⟨?_, ?_⟩
  · show FileSequenceAdapter.readBasicTop files (.int (i : Int)) = _
    simp only [FileSequenceAdapter.readBasicTop, hload]
    rfl
  · exact (List.all_eq_true.mp hS) _ (files.get_mem i hi)

/-- Witness for C3: two files of shape `(2,)`, reading index 1. -/
theorem read_int_loads_one_file_witness :
    FileSequenceAdapter.read exFiles2 (.int ((1 : Nat) : Int)) =
      .ok (.dim [.scalar 30, .scalar 40], [1]) ∧
    (Tensor.dim [Tensor.scalar (30 : Int), .scalar 40]).hasShape [2] = true :=
  read_int_loads_one_file exFiles2 [2] 1 (by decide) (by decide)

/-- C4: for a contiguous range `a ≤ b ≤ N`, `read(slice(a, b))` loads
exactly the files `a, …, b-1` (no index outside `[a, b)` is loaded) and
returns the stacked array of shape `(b-a, *S)`. -/
theorem read_slice_loads_range {α : Type} (files : List (Tensor α))
    (S : List Nat) (a b : Nat)
    (hS : files.all (fun t => t.hasShape S) = true)
    (hab : a ≤ b) (hbn : b ≤ files.length) :
    FileSequenceAdapter.read files (.slice ⟨some (a : Int), some (b : Int)⟩) =
      .ok (.dim ((files.drop a).take (b - a)), List.range' a (b - a)) ∧
    Tensor.hasShape ((b - a) :: S) (.dim ((files.drop a).take (b - a))) = true ∧
    ∀ j ∈ List.range' a (b - a), a ≤ j ∧ j < b := by
  refine ⟨read_slice_eval files a b hab hbn, ?_, ?_⟩
  · simp only [Tensor.hasShape, Bool.and_eq_true, beq_iff_eq, List.all_eq_true]
    refine ⟨?_, ?_⟩
    · simp only [List.length_take, List.length_drop]
      omega
    · intro t ht
      exact (List.all_eq_true.mp hS) t
        (List.mem_of_mem_drop (List.mem_of_mem_take ht))
  · intro j hj
    have := List.mem_range'.mp hj
    omega

/-- Witness for C4: two files of shape `(2,)`, reading `slice(1, 2)`. -/
theorem read_slice_loads_range_witness :
    FileSequenceAdapter.read exFiles2 (.slice ⟨some 1, some 2⟩) =
      .ok (.dim [.dim [.scalar 30, .scalar 40]], [1]) ∧
    Tensor.hasShape [1, 2]
      (Tensor.dim [Tensor.dim [Tensor.scalar (30 : Int), .scalar 40]]) = true :=
  ⟨(read_slice_loads_range exFiles2 [2] 1 2 (by decide) (by decide)
      (by decide)).1,
   by decide⟩

/-- C1 (counterexample): over one file holding the slab `[7]` (shape
`(1,)`), `read_block((0, 0))` with the default slice returns the chunk of
shape `(1, 1)` — the degenerate leading dimension is kept — which is not
equal to `read(0)`, the slab of shape `(1,)`. -/
theorem read_block_default_keeps_leading_cex :
    FileSequenceAdapter.read_block exFiles1 [0, 0] .ellipsis =
      .ok (.dim [.dim [.scalar 7]], [0]) ∧
    FileSequenceAdapter.read exFiles1 (.int 0) = .ok (.dim [.scalar 7], [0]) ∧
    FileSequenceAdapter.read_block exFiles1 [0, 0] .ellipsis ≠
      FileSequenceAdapter.read exFiles1 (.int 0) := by
  decide

/-- C1 (amended): `read_block((i, 0, …, 0))` with the default slice
loads exactly file `i` and returns `read(slice(i, i+1))` — the slab of
file `i` with the length-1 leading dimension kept, an array of shape
`(1, *S)` (not `read(i)`, which drops that dimension). -/
theorem read_block_zero_trailing_eq_read_slice {α : Type}
    (files : List (Tensor α)) (S : List Nat) (i : Nat) (trailing : List Int)
    (hS : files.all (fun t => t.hasShape S) = true) (hi : i < files.length)
    (hz : ∀ b ∈ trailing, b = 0) :
    FileSequenceAdapter.read_block files ((i : Int) :: trailing) .ellipsis =
      FileSequenceAdapter.read files
        (.slice ⟨some (i : Int), some ((i : Int) + 1)⟩) ∧
    FileSequenceAdapter.read_block files ((i : Int) :: trailing) .ellipsis =
      .ok (.dim [files.get ⟨i, hi⟩], [i]) ∧
    Tensor.hasShape (1 :: S) (.dim [files.get ⟨i, hi⟩]) = true := by
  have hany : trailing.any (fun b => b ≠ 0) = false := by
    rw [List.any_eq_false]
    intro b hb
    simpa using hz b hb
  have hcast : ((i : Int) + 1) = (((i + 1 : Nat)) : Int) := by push_cast; ring
  have htake : List.take 1 (List.drop i files) = [files.get ⟨i, hi⟩] := by
    rw [List.drop_eq_getElem_cons hi]
    rfl
  have hread : FileSequenceAdapter.read files
      (.slice ⟨some (i : Int), some ((i : Int) + 1)⟩) =
      .ok (.dim [files.get ⟨i, hi⟩], [i]) := by
    rw [hcast, read_slice_eval files i (i + 1) (by omega) (by omega)]
    have hba : i + 1 - i = 1 := by omega
    rw [hba, htake, List.range'_one]
  have hblock : FileSequenceAdapter.read_block files ((i : Int) :: trailing)
      .ellipsis = .ok (.dim [files.get ⟨i, hi⟩], [i]) := by
    simp only [FileSequenceAdapter.read_block]
    rw [if_neg (by rw [hany]; exact Bool.false_ne_true), hread]
    rfl
  refine ⟨by rw [hblock, hread], hblock, ?_⟩
  simp only [Tensor.hasShape, List.length_singleton, List.all_cons,
    List.all_nil, Bool.and_true, beq_self_eq_true, Bool.true_and]
  exact (List.all_eq_true.mp hS) _ (files.get_mem i hi)

/-- Witness for C1 (amended) at one file of shape `(1,)`, block `(0, 0)`. -/
theorem read_block_zero_trailing_eq_read_slice_witness :
    FileSequenceAdapter.read_block exFiles1 [((0 : Nat) : Int), 0] .ellipsis =
      .ok (.dim [.dim [.scalar 7]], [0]) ∧
    Tensor.hasShape [1, 1] (Tensor.dim [Tensor.dim [Tensor.scalar (7 : Int)]]) =
      true :=
  ⟨(read_block_zero_trailing_eq_read_slice exFiles1 [1] 0 [0] (by decide)
      (by decide) (by decide)).2.1,
   (read_block_zero_trailing_eq_read_slice exFiles1 [1] 0 [0] (by decide)
      (by decide) (by decide)).2.2⟩

/-- C6: with no structure supplied, the inferred `ArrayStructure` has
shape `(N, *S)`, one chunk per file along the leading dimension, one
full-width chunk per trailing dimension, and satisfies the
chunk-coverage invariant. -/
theorem infer_structure_shape_chunks_cover {α : Type}
    (files : List (Tensor α)) (S : List Nat) (d : String)
    (hne : files ≠ []) (hS : files.all (fun t => t.hasShape S) = true)
    (hpos : ∀ m ∈ S, 0 < m) :
    FileSequenceAdapter.inferStructure files d =
      .ok ⟨files.length :: S,
           List.replicate files.length 1 :: S.map (fun i => [i]), d⟩ ∧
    ArrayStructure.chunksCover
      ⟨files.length :: S,
       List.replicate files.length 1 :: S.map (fun i => [i]), d⟩ = true := by
  have hlen : 0 < files.length := List.length_pos.mpr hne
  have hneg : ¬ ((0 : Int) < 0) := by simp
  have hcond : 0 ≤ (0 : Int) ∧ ((0 : Int)).toNat < files.length :=
    ⟨le_refl 0, by simpa using hlen⟩
  have hload : FileSequenceAdapter.loadFromFiles files (.int 0) =
      .ok (.dim [files.get ⟨0, hlen⟩], [0]) := by
    simp only [FileSequenceAdapter.loadFromFiles, if_neg hneg]
    rw [dif_pos hcond]
    rfl
  have hsh : (files.get ⟨0, hlen⟩).shape = S :=
    shape_of_hasShape S _ hpos ((List.all_eq_true.mp hS) _ (files.get_mem 0 hlen))
  have hsh' : files[0].shape = S := hsh
  refine ⟨?_, ?_⟩
  · simp only [FileSequenceAdapter.inferStructure, hload, except_bind_ok]
    simp [Tensor.shape, hsh, hsh']
  · simp [ArrayStructure.chunksCover, List.sum_replicate, trailing_chunks_cover S]

/-- Witness for C6: two files of shape `(2,)`. -/
theorem infer_structure_shape_chunks_cover_witness :
    FileSequenceAdapter.inferStructure exFiles2 "int64" =
      .ok ⟨[2, 2], [[1, 1], [2]], "int64"⟩ ∧
    ArrayStructure.chunksCover ⟨[2, 2], [[1, 1], [2]], "int64"⟩ = true :=
  infer_structure_shape_chunks_cover exFiles2 [2] "int64" (by decide)
    (by decide) (by decide)

/-- C7: `read_partition(p, columns)` raises `IndexError` exactly when
`p` lies outside `[0, npartitions)`; an in-range `p` yields the deferred
one-partition frame (no error masked as an empty result, and nothing
fetched yet). -/
theorem read_partition_index_error_iff (st : TableStructure) (p : Int)
    (cols : Option (List String)) :
    (DataFrameClient.read_partition st p cols = .error .indexError ↔
      ¬ (0 ≤ p ∧ p < st.npartitions)) ∧
    ((0 ≤ p ∧ p < st.npartitions) →
      DataFrameClient.read_partition st p none = .ok (.delayed p.toNat none)) := by
  refine ⟨⟨?_, ?_⟩, ?_⟩
  · intro heq hin
    simp only [DataFrameClient.read_partition, if_neg (not_not_intro hin)] at heq
    by_cases hc : (cols.getD []).all st.columns.contains = true
    · rw [if_pos hc] at heq
      exact Except.noConfusion heq
    · rw [if_neg hc] at heq
      injection heq with h'
      exact PyErr.noConfusion h'
  · intro hout
    simp only [DataFrameClient.read_partition]
    rw [if_pos hout]
  · intro hin
    simp only [DataFrameClient.read_partition]
    rw [if_neg (not_not_intro hin)]
    simp

/-- Witness for C7: a 3-partition table, in-range index 1 and
out-of-range index 5. -/
theorem read_partition_index_error_iff_witness :
    DataFrameClient.read_partition ⟨3, ["A"]⟩ 1 none = .ok (.delayed 1 none) ∧
    DataFrameClient.read_partition ⟨3, ["A"]⟩ 5 none = .error .indexError :=
  ⟨(read_partition_index_error_iff ⟨3, ["A"]⟩ 1 none).2 (by decide),
   (read_partition_index_error_iff ⟨3, ["A"]⟩ 5 none).1.mpr (by decide)⟩

end Tiled
